import Mathlib

/-!
Verification development for the mcp-prometheus MCP server
(giantswarm/mcp-prometheus).

The Go sources are shallowly embedded: Go strings become `List Char`
(byte/char distinctions are immaterial for the properties below: all
string positions that matter hold ASCII), Go `(T, error)` returns become
`Except` values, and the network side of the Prometheus client library is
abstracted as an oracle value passed to the embedded functions.  Each
definition is translated from a named function of the repository
(`internal/tools/prometheus/client.go`, `internal/tools/prometheus/tools.go`,
`internal/server/context.go`); external standard-library routines used by
those functions (`time.Parse` with the RFC3339 layout, `time.ParseDuration`,
`github.com/prometheus/common/model.ParseDuration`) are embedded by their
documented behaviour where the repository depends on them.
-/

set_option maxRecDepth 1024

namespace MCPProm

/-- Go strings are embedded as lists of characters. -/
abbrev GoString := List Char

/-- Shorthand turning a Lean string literal into the embedded string type. -/
def gs (s : String) : GoString := s.data

/-! ## Data model: `internal/server/context.go` -/

/-- `server.PrometheusConfig`: {URL, Username, Password, Token, OrgID}. -/
structure PrometheusConfig where
  url : GoString
  username : GoString
  password : GoString
  token : GoString
  orgID : GoString
deriving DecidableEq

/-- The zero value of `server.PrometheusConfig`. -/
def PrometheusConfig.zero : PrometheusConfig := ⟨[], [], [], [], []⟩

/-- The relevant process environment: values of the five PROMETHEUS_*
environment variables read by the server (empty list = unset/empty). -/
structure Env where
  promURL : GoString
  promUsername : GoString
  promPassword : GoString
  promToken : GoString
  promOrgID : GoString
deriving DecidableEq

/-- The configuration `server.NewServerContext` loads from the environment
when no explicit configuration with a non-empty URL was provided
(`context.go`: "Load Prometheus configuration from environment if not
provided", guarded by `sc.prometheusConfig.URL == ""`). -/
def newServerContextConfig (provided : PrometheusConfig) (env : Env) : PrometheusConfig :=
  if provided.url = [] then
    ⟨env.promURL, env.promUsername, env.promPassword, env.promToken, env.promOrgID⟩
  else provided

/-! ## Transport layering: `client.go`, `NewClient` and the round trippers -/

/-- The chain of `http.RoundTripper` decorators built by `NewClient`:
`orgIDRoundTripper`, `basicAuthRoundTripper` and `bearerTokenRoundTripper`
each wrap an inner round tripper; `defaultTransport` is
`http.DefaultTransport`. -/
inductive RoundTripper where
  | defaultTransport
  | bearerTokenRoundTripper (token : GoString) (rt : RoundTripper)
  | basicAuthRoundTripper (username password : GoString) (rt : RoundTripper)
  | orgIDRoundTripper (orgID : GoString) (rt : RoundTripper)
deriving DecidableEq

/-- The kind of a transport layer, used to talk about the shape of a chain. -/
inductive LayerKind where
  | defaultTransport
  | bearerToken
  | basicAuth
  | orgHeader
deriving DecidableEq

/-- The layers of a round-tripper chain, outermost first. -/
def layerKinds : RoundTripper → List LayerKind
  | .defaultTransport => [.defaultTransport]
  | .bearerTokenRoundTripper _ rt => .bearerToken :: layerKinds rt
  | .basicAuthRoundTripper _ _ rt => .basicAuth :: layerKinds rt
  | .orgIDRoundTripper _ rt => .orgHeader :: layerKinds rt

/-- The transport chain `NewClient` builds (`client.go`): start from
`http.DefaultTransport`; if `config.Token != ""` wrap it in a
`bearerTokenRoundTripper`, else if `config.Username != "" && config.Password != ""`
wrap it in a `basicAuthRoundTripper`; finally, if `config.OrgID != ""`, wrap
the result in an `orgIDRoundTripper`. -/
def buildRoundTripper (config : PrometheusConfig) : RoundTripper :=
  let rt : RoundTripper := .defaultTransport
  let rt : RoundTripper :=
    if config.token ≠ [] then .bearerTokenRoundTripper config.token rt
    else if config.username ≠ [] ∧ config.password ≠ [] then
      .basicAuthRoundTripper config.username config.password rt
    else rt
  if config.orgID ≠ [] then .orgIDRoundTripper config.orgID rt else rt

/-- The transport chain described by the specification's words: "innermost
default transport, wrapped by an auth layer (bearer or basic, mutually
exclusive, bearer checked first), wrapped by an org-id header layer".
Written from the spec, to be compared with `buildRoundTripper`. -/
def specTransport (config : PrometheusConfig) : RoundTripper :=
  let auth : RoundTripper :=
    if config.token ≠ [] then .bearerTokenRoundTripper config.token .defaultTransport
    else if config.username ≠ [] ∧ config.password ≠ [] then
      .basicAuthRoundTripper config.username config.password .defaultTransport
    else .defaultTransport
  if config.orgID ≠ [] then .orgIDRoundTripper config.orgID auth else auth

/-- A client as observable after `NewClient`: its configuration, and whether
the wrapped `v1.API` value is non-nil (`client.client != nil`). -/
structure ClientRepr where
  config : PrometheusConfig
  valid : Bool
deriving DecidableEq

/-- `NewClient` (`client.go`): builds the transport chain from the config and
creates the official client.  The embedded `valid` flag is false exactly when
the function returns a client with a nil `client` field: when the URL is
empty ("Validate URL" branch) or when `api.NewClient` fails; the latter,
external, failure condition is abstracted by the `apiOk` parameter. -/
def NewClient (apiOk : PrometheusConfig → Bool) (config : PrometheusConfig) : ClientRepr :=
  { config := config, valid := config.url ≠ [] && apiOk config }

/-! ## Result formatting: `tools.go`, `formatQueryResult` -/

/-- `MaxResultLength` (`tools.go`). -/
def MaxResultLength : Nat := 50000

/-- `TruncationAdvice` (`tools.go`): the fixed advisory appended to truncated
results.  (`\x7b`/`\x7d` denote the literal braces of the PromQL example.) -/
def TruncationAdvice : GoString :=
  gs "\n\n⚠️  RESULT TRUNCATED: The query returned a very large result (>50k characters).\n\n💡 To optimize your query and get less output, consider:\n   • Adding more specific label filters: \x7bapp=\"specific-app\", namespace=\"specific-ns\"\x7d\n   • Using aggregation functions: sum(), avg(), count(), etc.\n   • Limiting time ranges for range queries\n   • Using topk() or bottomk() to get only top/bottom N results\n   • Filtering by specific metrics instead of using wildcards\n\n🔧 To get the full untruncated result, add \"unlimited\": \"true\" to your query parameters, but be aware this may impact performance."

/-- The performance warning prepended when unlimited output is requested
(`formatQueryResult`, `tools.go`). -/
def unlimitedWarning : GoString :=
  gs "⚠️  WARNING: Unlimited output enabled - this response may be very large and could impact performance.\n\n"

/-- The serialization built by `formatQueryResult` before any truncation:
`fmt.Sprintf("Query executed successfully.\nResult Type: %s\nResult: %+v", resultType, result)`.
The `%+v` rendering of the result value is taken as an opaque string input. -/
def queryResultText (resultType resultRepr : GoString) : GoString :=
  gs "Query executed successfully.\nResult Type: " ++ resultType ++ gs "\nResult: " ++ resultRepr

/-- Index of the last newline of a string, `-1` when there is none
(`strings.LastIndex(s, "\n")`).  `lastNewlineAux?` returns the index as an
optional natural number. -/
def lastNewlineAux? : GoString → Option Nat
  | [] => none
  | c :: cs =>
    match lastNewlineAux? cs with
    | some i => some (i + 1)
    | none => if c = '\n' then some 0 else none

/-- `strings.LastIndex(s, "\n")` as used by `formatQueryResult`. -/
def lastNewlineIndex (s : GoString) : Int :=
  match lastNewlineAux? s with
  | some i => (i : Int)
  | none => -1

/-- The truncation step of `formatQueryResult` applied to
`truncated := resultStr[:MaxResultLength]`: if the last newline of the
truncated prefix lies strictly after `MaxResultLength-1000`, cut there
("Try to end at a complete line"); then append `TruncationAdvice`. -/
def truncateWithAdvice (truncated : GoString) : GoString :=
  (if lastNewlineIndex truncated > (MaxResultLength : Int) - 1000 then
    truncated.take (lastNewlineIndex truncated).toNat
  else truncated) ++ TruncationAdvice

/-- `formatQueryResult` (`tools.go`): prepend the warning when unlimited was
requested; otherwise truncate (with advice) when the serialization exceeds
`MaxResultLength`; otherwise return it unmodified. -/
def formatQueryResult (resultType resultRepr : GoString) (unlimited : Bool) : GoString :=
  if unlimited then unlimitedWarning ++ queryResultText resultType resultRepr
  else if (queryResultText resultType resultRepr).length > MaxResultLength then
    truncateWithAdvice ((queryResultText resultType resultRepr).take MaxResultLength)
  else queryResultText resultType resultRepr

/-! ## External time/duration parsers used by `client.go`

`client.go` depends on three external parsers; their accept/reject behaviour
gates dispatch, so they are embedded by their documented behaviour:
`time.Parse(time.RFC3339, ...)` (strict RFC3339: `parseRFC3339` in Go's
`time` package), `time.ParseDuration`, and
`github.com/prometheus/common/model.ParseDuration`. -/

/-- Numeric value of two ASCII digit characters. -/
def twoDigits (a b : Char) : Nat := (a.toNat - 48) * 10 + (b.toNat - 48)

/-- Gregorian leap year, as Go's `time.isLeap`. -/
def isLeapYear (y : Nat) : Bool := y % 4 = 0 && (y % 100 ≠ 0 || y % 400 = 0)

/-- Days in a month, as Go's `time.daysIn`. -/
def daysInMonth (year month : Nat) : Nat :=
  if month = 2 then (if isLeapYear year then 29 else 28)
  else if month = 4 ∨ month = 6 ∨ month = 9 ∨ month = 11 then 30
  else 31

/-- Validity of the RFC3339 timezone suffix through Go's `time.Parse`: an
uppercase `Z`, or `±hh:mm` with hh ≤ 24 and mm ≤ 60.  `time.Parse` tries the
strict `parseRFC3339` fast path (hh ≤ 23, mm ≤ 59) and falls back to the
general layout parser, whose offset bounds are lenient ("The range test use >
rather than >=, as some people do write offsets of 24 hours"); the union of
the two accepted sets is the general parser's. -/
def offsetValid : GoString → Bool
  | ['Z'] => true
  | [si, a, b, ':', c, d] =>
    (si = '+' || si = '-') && a.isDigit && b.isDigit && c.isDigit && d.isDigit &&
      twoDigits a b ≤ 24 && twoDigits c d ≤ 60
  | _ => false

/-- Validity of the optional fractional seconds and the timezone suffix
through Go's `time.Parse`: the strict fast path only accepts `.` before the
fraction digits, but the general-parser fallback also accepts a comma
(`commaOrPeriod` in its fractional-second special case), so `.` or `,`
followed by at least one digit is accepted. -/
def fracOffsetValid : GoString → Bool
  | sep :: rest =>
    if sep = '.' || sep = ',' then
      match rest with
      | c :: r => c.isDigit && offsetValid (r.dropWhile Char.isDigit)
      | [] => false
    else offsetValid (sep :: rest)
  | [] => offsetValid []

/-- Whether `time.Parse(time.RFC3339, s)` succeeds.  Go tries the strict
`parseRFC3339` fast path and, when it fails, the general layout parser; as
the fast path accepts a subset of the general parser for this layout, the
accepted set is the general parser's: `YYYY-MM-DDThh:mm:ss` with in-range
components (month 1–12, day within the month, hour ≤ 23, minute ≤ 59,
second ≤ 59), optional fractional seconds after `.` or `,`, and a `Z` or
`±hh:mm` timezone suffix with the lenient offset bounds of `offsetValid`. -/
def rfc3339Valid : GoString → Bool
  | y1 :: y2 :: y3 :: y4 :: '-' :: mo1 :: mo2 :: '-' :: d1 :: d2 :: 'T' ::
      h1 :: h2 :: ':' :: mi1 :: mi2 :: ':' :: se1 :: se2 :: rest =>
    y1.isDigit && y2.isDigit && y3.isDigit && y4.isDigit &&
    mo1.isDigit && mo2.isDigit && d1.isDigit && d2.isDigit &&
    h1.isDigit && h2.isDigit && mi1.isDigit && mi2.isDigit &&
    se1.isDigit && se2.isDigit &&
    (1 ≤ twoDigits mo1 mo2 && twoDigits mo1 mo2 ≤ 12) &&
    (1 ≤ twoDigits d1 d2 &&
      twoDigits d1 d2 ≤ daysInMonth (twoDigits y1 y2 * 100 + twoDigits y3 y4) (twoDigits mo1 mo2)) &&
    twoDigits h1 h2 ≤ 23 && twoDigits mi1 mi2 ≤ 59 && twoDigits se1 se2 ≤ 59 &&
    fracOffsetValid rest
  | _ => false

/-- Nanoseconds per second, as `time.Second`. -/
def nsPerSecond : Int := 1000000000

/-- Leading decimal digits of a string and the remainder. -/
def takeDigits (s : GoString) : GoString × GoString :=
  (s.takeWhile Char.isDigit, s.dropWhile Char.isDigit)

/-- Numeric value of a digit string. -/
def digitsToNat (l : GoString) : Nat := l.foldl (fun a c => a * 10 + (c.toNat - 48)) 0

/-- Nanoseconds per Go duration unit (`time.ParseDuration`'s `unitMap`). -/
def goDurationUnitNs : GoString → Option Nat
  | ['n', 's'] => some 1
  | ['u', 's'] => some 1000
  | ['µ', 's'] => some 1000
  | ['μ', 's'] => some 1000
  | ['m', 's'] => some 1000000
  | ['s'] => some 1000000000
  | ['m'] => some 60000000000
  | ['h'] => some 3600000000000
  | _ => none

/-- The digit scan of `time.ParseDuration`'s `leadingInt`, including its
overflow detection: fails (`errLeadingInt`) when the accumulator exceeds
`1<<63/10` before a step or `1<<63` after one. -/
def leadingIntVal : GoString → Nat → Option Nat
  | [], x => some x
  | c :: cs, x =>
    if x > 2 ^ 63 / 10 then none
    else
      let x' := x * 10 + (c.toNat - 48)
      if x' > 2 ^ 63 then none
      else leadingIntVal cs x'

/-- One pass of `time.ParseDuration`'s component loop: each component is
`[0-9]*(\.[0-9]*)? unit` with at least one digit before or after the dot and
a non-empty known unit, with the source's overflow errors: `leadingInt`
overflow on the integer part, `v > 1<<63/unit` before scaling, `v > 1<<63`
after adding a non-zero fraction, and `d > 1<<63` after accumulating (the
accumulator `d` is a uint64, so the addition wraps modulo `2^64` before the
check, as in Go).  Go computes the fractional contribution with float64;
this model uses exact integer arithmetic, which agrees on every input the
repository's claims touch.  The fuel argument strictly exceeds the string
length, and each component consumes at least one character. -/
def parseGoDurationLoop : Nat → GoString → Nat → Option Nat
  | _, [], d => some d
  | 0, _, _ => none
  | fuel + 1, s, d =>
    let (intDigits, s1) := takeDigits s
    match leadingIntVal intDigits 0 with
    | none => none
    | some v0 =>
      let (hasDot, fracDigits, s2) :=
        match s1 with
        | '.' :: r => (true, r.takeWhile Char.isDigit, r.dropWhile Char.isDigit)
        | _ => (false, ([] : GoString), s1)
      if intDigits = [] ∧ (¬hasDot ∨ fracDigits = []) then none
      else
        let unit := s2.takeWhile (fun c => ¬(c.isDigit ∨ c = '.'))
        let s3 := s2.dropWhile (fun c => ¬(c.isDigit ∨ c = '.'))
        if unit = [] then none
        else
          match goDurationUnitNs unit with
          | none => none
          | some u =>
            if v0 > 2 ^ 63 / u then none
            else
              let f := digitsToNat fracDigits
              let v := v0 * u + f * u / 10 ^ fracDigits.length
              if 0 < f ∧ v > 2 ^ 63 then none
              else
                let dnext := (d + v) % 2 ^ 64
                if dnext > 2 ^ 63 then none
                else parseGoDurationLoop fuel s3 dnext

/-- `time.ParseDuration`: optional sign, the special case `"0"`, then one or
more number+unit components; returns nanoseconds, or fails on any of the
source's overflow conditions (durations beyond the int64 range, roughly 292
years, are errors — the final `d > 1<<63-1` check for the non-negated
case). -/
def parseGoDuration (s : GoString) : Option Int :=
  match s with
  | [] => none
  | _ =>
    let (neg, s1) : Bool × GoString :=
      match s with
      | '-' :: r => (true, r)
      | '+' :: r => (false, r)
      | _ => (false, s)
    if s1 = ['0'] then some 0
    else if s1 = [] then none
    else
      match parseGoDurationLoop (s1.length + 1) s1 0 with
      | none => none
      | some d =>
        if neg then some (-(d : Int))
        else if d > 2 ^ 63 - 1 then none
        else some (d : Int)

/-- Tries to consume one `([0-9]+)u` group of a Prometheus duration, where
`u` is a single-character unit; returns the matched digit value and the
remainder, or leaves the input untouched. -/
def promTryUnit (s : GoString) (u : Char) : Option Nat × GoString :=
  let (ds, r) := takeDigits s
  if ds = [] then (none, s)
  else
    match r with
    | c :: r' => if c = u then (some (digitsToNat ds), r') else (none, s)
    | [] => (none, s)

/-- The minutes group `([0-9]+)m`: not taken when the `m` is the start of an
`ms` unit (the regular expression backtracks there and matches the final
`([0-9]+)ms` group instead). -/
def promTryMinutes (s : GoString) : Option Nat × GoString :=
  let (ds, r) := takeDigits s
  if ds = [] then (none, s)
  else
    match r with
    | 'm' :: 's' :: _ => (none, s)
    | 'm' :: r' => (some (digitsToNat ds), r')
    | _ => (none, s)

/-- The milliseconds group `([0-9]+)ms`. -/
def promTryMs (s : GoString) : Option Nat × GoString :=
  let (ds, r) := takeDigits s
  if ds = [] then (none, s)
  else
    match r with
    | 'm' :: 's' :: r' => (some (digitsToNat ds), r')
    | _ => (none, s)

/-- Two's-complement wraparound of an integer into the int64 range, as Go's
`time.Duration` arithmetic behaves on overflow. -/
def i64 (x : Int) : Int := (x + 2 ^ 63) % 2 ^ 64 - 2 ^ 63

/-- Accumulator of `model.ParseDuration`'s component closure: the running
`time.Duration` (nanoseconds, int64 semantics) and whether a
"duration out of range" error was recorded. -/
structure PromDurAcc where
  dur : Int
  overflow : Bool

/-- The component closure `m(pos, mult)` of `model.ParseDuration`: `multMs`
is the millisecond multiplier from the call sites.  The digit value comes
from `strconv.Atoi`, which clamps to the maximum int64 on overflow (its
error is ignored); the closure records "duration out of range" when
`n > (1<<63-1)/mult/time.Millisecond` or when the accumulated duration goes
negative after the (wrapping) addition `dur += d * mult`. -/
def promDurAdd (acc : PromDurAcc) (component : Option Nat) (multMs : Int) : PromDurAcc :=
  match component with
  | none => acc
  | some v =>
    let n : Int := min (v : Int) (2 ^ 63 - 1)
    let over1 : Bool := n > (2 ^ 63 - 1) / multMs / 1000000
    let d : Int := i64 (n * 1000000)
    let dur : Int := i64 (acc.dur + i64 (d * multMs))
    { dur := dur, overflow := acc.overflow || over1 || dur < 0 }

/-- `github.com/prometheus/common/model.ParseDuration`: the special case
`"0"`, or a full match of
`^([0-9]+y)?([0-9]+w)?([0-9]+d)?([0-9]+h)?([0-9]+m)?([0-9]+s)?([0-9]+ms)?$`
with at least one group; components are accumulated through `promDurAdd` and
a recorded "duration out of range" overflow (components beyond the int64
range, roughly 292 years) makes the parse fail; returns nanoseconds. -/
def parsePromDuration (s : GoString) : Option Int :=
  if s = ['0'] then some 0
  else if s = [] then none
  else
    let (vy, s1) := promTryUnit s 'y'
    let (vw, s2) := promTryUnit s1 'w'
    let (vd, s3) := promTryUnit s2 'd'
    let (vh, s4) := promTryUnit s3 'h'
    let (vm, s5) := promTryMinutes s4
    let (vs, s6) := promTryUnit s5 's'
    let (vms, s7) := promTryMs s6
    if s7 = [] then
      let acc : PromDurAcc := ⟨0, false⟩
      let acc := promDurAdd acc vy 31536000000
      let acc := promDurAdd acc vw 604800000
      let acc := promDurAdd acc vd 86400000
      let acc := promDurAdd acc vh 3600000
      let acc := promDurAdd acc vm 60000
      let acc := promDurAdd acc vs 1000
      let acc := promDurAdd acc vms 1
      if acc.overflow then none else some acc.dur
    else none

/-! ## Client calls: `client.go`, `ExecuteQuery` and friends

The network side of every call (`c.client.Query`, `c.client.QueryRange`, …)
is abstracted by an oracle value `net : Except GoString QueryResultM` — the
outcome the underlying Prometheus client library call would produce if the
call were dispatched.  Everything the repository computes before dispatch
(time-parameter validation, timeout selection) is embedded exactly. -/

/-- `QueryResult` (`client.go`): the result type string and the `%+v`
rendering of the result value (opaque here). -/
structure QueryResultM where
  resultType : GoString
  resultRepr : GoString
deriving DecidableEq

/-- Errors a client call can return before or after dispatch.  The
`requestFailed` payload carries the full rendered Go error text. -/
inductive ClientError where
  | invalidTimeParameter
  | invalidStartTime
  | invalidEndTime
  | invalidStepDuration
  | requestFailed (msg : GoString)
deriving DecidableEq

/-- Rendering of a client error as it appears in `%v` handler messages.  For
the parameter-validation errors the wrapped standard-library parse-error
detail is abbreviated to its fixed `fmt.Errorf` text. -/
def clientErrorText : ClientError → GoString
  | .invalidTimeParameter => gs "invalid time parameter"
  | .invalidStartTime => gs "invalid start time"
  | .invalidEndTime => gs "invalid end time"
  | .invalidStepDuration => gs "invalid step duration"
  | .requestFailed msg => msg

/-- Dispatching a call to the underlying client library: a library error is
wrapped with the operation's `fmt.Errorf` message. -/
def dispatchCall (wrap : GoString) (net : Except GoString QueryResultM) :
    Except ClientError QueryResultM :=
  match net with
  | .ok r => .ok r
  | .error e => .error (.requestFailed (wrap ++ e))

/-- Time-parameter handling shared by `ExecuteQuery` and
`ExecuteQueryWithOptions` (`client.go`): an empty parameter means "now"; a
non-empty parameter must parse as RFC3339.  The fallback
`fmt.Sscanf(timeParam, "%d", &queryTime)` scans into a `time.Time` value,
which implements no scanning method, so it returns an error for every input
and the fallback never succeeds: every non-RFC3339 value (Unix timestamps
included) yields the "invalid time parameter" error. -/
def timeParamAccepted (timeParam : GoString) : Bool :=
  timeParam = [] || rfc3339Valid timeParam

/-- `ExecuteQuery` (`client.go`): validate the time parameter, then dispatch
`c.client.Query` (abstracted by `net`), wrapping library errors with
"failed to execute query". -/
def ExecuteQuery (net : Except GoString QueryResultM) (query timeParam : GoString) :
    Except ClientError QueryResultM :=
  if timeParamAccepted timeParam then dispatchCall (gs "failed to execute query: ") net
  else .error .invalidTimeParameter

/-- `QueryOptions` (`client.go`). -/
structure QueryOptions where
  timeout : GoString
  limit : GoString
  stats : GoString
  lookbackDelta : GoString
deriving DecidableEq

/-- `ExecuteQueryWithOptions` (`client.go`): same validation and dispatch as
`ExecuteQuery`; the options only influence the context timeout and the
`v1.Option` list, not the result value. -/
def ExecuteQueryWithOptions (net : Except GoString QueryResultM)
    (query timeParam : GoString) (options : QueryOptions) :
    Except ClientError QueryResultM :=
  if timeParamAccepted timeParam then dispatchCall (gs "failed to execute query: ") net
  else .error .invalidTimeParameter

/-- `ExecuteRangeQuery` (`client.go`): start and end must parse as RFC3339,
the step as a Prometheus duration (`model.ParseDuration`); then dispatch
`c.client.QueryRange`. -/
def ExecuteRangeQuery (net : Except GoString QueryResultM)
    (query startP endP step : GoString) : Except ClientError QueryResultM :=
  if rfc3339Valid startP = false then .error .invalidStartTime
  else if rfc3339Valid endP = false then .error .invalidEndTime
  else
    match parsePromDuration step with
    | none => .error .invalidStepDuration
    | some _ => dispatchCall (gs "failed to execute range query: ") net

/-- `ExecuteRangeQueryWithOptions` (`client.go`): same validation and
dispatch as `ExecuteRangeQuery`. -/
def ExecuteRangeQueryWithOptions (net : Except GoString QueryResultM)
    (query startP endP step : GoString) (options : QueryOptions) :
    Except ClientError QueryResultM :=
  if rfc3339Valid startP = false then .error .invalidStartTime
  else if rfc3339Valid endP = false then .error .invalidEndTime
  else
    match parsePromDuration step with
    | none => .error .invalidStepDuration
    | some _ => dispatchCall (gs "failed to execute range query: ") net

/-! ### Per-operation context timeouts (`context.WithTimeout` arguments) -/

/-- Timeout of `ExecuteQuery`: `30*time.Second`. -/
def executeQueryTimeoutNs : Int := 30 * nsPerSecond

/-- Timeout of `ExecuteRangeQuery`: `60*time.Second`. -/
def executeRangeQueryTimeoutNs : Int := 60 * nsPerSecond

/-- Timeout of `ListMetrics`/`ListMetricsWithOptions`: `30*time.Second`. -/
def listMetricsTimeoutNs : Int := 30 * nsPerSecond

/-- Timeout of `GetMetricMetadataWithOptions`: `30*time.Second`. -/
def getMetricMetadataTimeoutNs : Int := 30 * nsPerSecond

/-- Timeout of `GetTargets`: `30*time.Second`. -/
def getTargetsTimeoutNs : Int := 30 * nsPerSecond

/-- Timeout of `ListLabelNames` and `ListLabelValues`: `30*time.Second`. -/
def labelQueryTimeoutNs : Int := 30 * nsPerSecond

/-- Timeout of `FindSeries`: `30*time.Second`. -/
def findSeriesTimeoutNs : Int := 30 * nsPerSecond

/-- Timeout of `GetRules`, `GetAlerts`, `GetAlertManagers`, `GetConfig`,
`GetFlags`, `GetBuildInfo`, `GetRuntimeInfo`, `GetTSDBStats`,
`QueryExemplars` and `GetTargetsMetadata`: `30*time.Second`. -/
def adminCallTimeoutNs : Int := 30 * nsPerSecond

/-- Timeout chosen by `ExecuteQueryWithOptions`: `30*time.Second` unless a
non-empty `options.Timeout` parses via `time.ParseDuration`, in which case
the parsed value is used. -/
def executeQueryWithOptionsTimeoutNs (options : QueryOptions) : Int :=
  if options.timeout ≠ [] then
    match parseGoDuration options.timeout with
    | some d => d
    | none => 30 * nsPerSecond
  else 30 * nsPerSecond

/-- Timeout chosen by `ExecuteRangeQueryWithOptions`: `60*time.Second` unless
a non-empty `options.Timeout` parses via `time.ParseDuration`. -/
def executeRangeQueryWithOptionsTimeoutNs (options : QueryOptions) : Int :=
  if options.timeout ≠ [] then
    match parseGoDuration options.timeout with
    | some d => d
    | none => 60 * nsPerSecond
  else 60 * nsPerSecond

/-! ## Parameter extraction: `tools.go` -/

/-- A value of the untyped `map[string]interface{}` argument map: a string, an
array of arbitrary values, or some other JSON value. -/
inductive PValue where
  | str (s : GoString)
  | arr (elems : List PValue)
  | other

/-- The argument map of a tool call (keys are unique, as in a Go map). -/
abbrev Params := List (GoString × PValue)

/-- Map lookup `params[key]`. -/
def getParam (params : Params) (key : GoString) : Option PValue :=
  (params.find? (fun kv => kv.1 == key)).map (·.2)

/-- The Go pattern `v, ok := params[key].(string)`: `some v` exactly when the
key is present with a string value (possibly empty). -/
def asStringParam (params : Params) (key : GoString) : Option GoString :=
  match getParam params key with
  | some (.str s) => some s
  | _ => none

/-- `getStringParam` (`tools.go`): the string value if present and a string,
`""` otherwise. -/
def getStringParam (params : Params) (key : GoString) : GoString :=
  match getParam params key with
  | some (.str s) => s
  | _ => []

/-- The required-parameter pattern of the handlers:
`v, ok := params[key].(string); if !ok || v == "" { error }`.
`some v` exactly when the key holds a non-empty string. -/
def reqStringParam (params : Params) (key : GoString) : Option GoString :=
  match getParam params key with
  | some (.str s) => if s = [] then none else some s
  | _ => none

/-- `buildPrometheusConfig` (`client.go`): credentials come from the base
config; the URL is the `PROMETHEUS_URL` environment value when non-empty,
else the parameter, else an error; the org id is the `PROMETHEUS_ORGID`
environment value when non-empty, else the parameter, else empty (which is
acceptable).  The `os.Getenv` reads are embedded as the explicit `env`
argument. -/
def buildPrometheusConfig (baseConfig : PrometheusConfig) (env : Env)
    (prometheusURL orgID : GoString) : Except GoString PrometheusConfig :=
  let resolvedOrg : GoString :=
    if env.promOrgID ≠ [] then env.promOrgID
    else if orgID ≠ [] then orgID
    else []
  if env.promURL ≠ [] then
    .ok ⟨env.promURL, baseConfig.username, baseConfig.password, baseConfig.token, resolvedOrg⟩
  else if prometheusURL ≠ [] then
    .ok ⟨prometheusURL, baseConfig.username, baseConfig.password, baseConfig.token, resolvedOrg⟩
  else
    .error (gs "prometheus URL is required: either set PROMETHEUS_URL environment variable or provide prometheus_url parameter")

/-- `createClientFromParams` (`tools.go`): when neither `prometheus_url` nor
`org_id` is supplied (as a string), the default client is used if its inner
client is non-nil, else an error.  Otherwise a brand-new config is built
containing only the supplied URL and org id ("Start with empty config to
avoid inheriting potentially empty defaults"), a URL is required, and
`NewClient` is called on it. -/
def createClientFromParams (apiOk : PrometheusConfig → Bool) (params : Params)
    (defaultClient : Option ClientRepr) : Except GoString ClientRepr :=
  let urlParam := asStringParam params (gs "prometheus_url")
  let orgParam := asStringParam params (gs "org_id")
  if urlParam = none ∧ orgParam = none then
    match defaultClient with
    | some c =>
      if c.valid then .ok c
      else .error (gs "prometheus_url parameter is required (no default Prometheus configuration available)")
    | none => .error (gs "prometheus_url parameter is required (no default Prometheus configuration available)")
  else
    let config : PrometheusConfig :=
      { url := match urlParam with
               | some u => if u ≠ [] then u else []
               | none => []
        username := []
        password := []
        token := []
        orgID := match orgParam with
                 | some o => if o ≠ [] then o else []
                 | none => [] }
    if config.url = [] then
      .error (gs "prometheus_url parameter is required when using dynamic client configuration")
    else
      let client := NewClient apiOk config
      if client.valid then .ok client
      else .error (gs "failed to initialize Prometheus client with URL: " ++ config.url ++ gs ", OrgID: " ++ config.orgID)

/-- The client a tool call is served with, end to end: the default client is
built at registration time (`RegisterPrometheusTools`) from the server
context's configuration — loaded from the environment when none with a
non-empty URL was provided — and `withDynamicPrometheusClient` runs
`createClientFromParams` on every call. -/
def serveToolCallClient (apiOk : PrometheusConfig → Bool) (env : Env)
    (params : Params) : Except GoString ClientRepr :=
  createClientFromParams apiOk params
    (some (NewClient apiOk (newServerContextConfig PrometheusConfig.zero env)))

/-! ## Tool handlers: `tools.go` -/

/-- The observable part of an `mcp.CallToolResult` with a single text
content. -/
structure CallToolResult where
  isError : Bool
  text : GoString
deriving DecidableEq

/-- An error tool result, as built inline by the handlers. -/
def errorResult (msg : GoString) : CallToolResult := ⟨true, msg⟩

/-- The handlers' return type: the tool result together with the returned Go
`error` value (always `nil`, embedded as `none`). -/
abbrev HandlerResult := CallToolResult × Option GoString

/-- The `QueryOptions` a query handler extracts from the argument map. -/
def extractQueryOptions (params : Params) : QueryOptions :=
  { timeout := getStringParam params (gs "timeout")
    limit := getStringParam params (gs "limit")
    stats := getStringParam params (gs "stats")
    lookbackDelta := getStringParam params (gs "lookback_delta") }

/-- Whether any enhancement option was provided ("Use enhanced query if any
options are provided"). -/
def anyQueryOption (options : QueryOptions) : Bool :=
  options.timeout ≠ [] || options.limit ≠ [] || options.stats ≠ [] || options.lookbackDelta ≠ []

/-- `handleExecuteQuery` (`tools.go`): require a non-empty string `query`;
read `time`, `unlimited` and the options; call `ExecuteQueryWithOptions` when
any option is set, else `ExecuteQuery`; render errors as error results and
successes through `formatQueryResult`.  Every return path carries a nil Go
error. -/
def handleExecuteQuery (net : Except GoString QueryResultM) (params : Params) :
    HandlerResult :=
  match reqStringParam params (gs "query") with
  | none => (errorResult (gs "Error: query parameter is required and must be a string"), none)
  | some query =>
    let timeParam := getStringParam params (gs "time")
    let unlimited := getStringParam params (gs "unlimited") == gs "true"
    let options := extractQueryOptions params
    let result :=
      if anyQueryOption options then ExecuteQueryWithOptions net query timeParam options
      else ExecuteQuery net query timeParam
    match result with
    | .error e => (errorResult (gs "Error executing query: " ++ clientErrorText e), none)
    | .ok r => (⟨false, formatQueryResult r.resultType r.resultRepr unlimited⟩, none)

/-- `handleExecuteRangeQuery` (`tools.go`): require non-empty string `query`,
`start`, `end` and `step` (checked in that order); then dispatch as
`handleExecuteQuery` does, through the range-query client calls. -/
def handleExecuteRangeQuery (net : Except GoString QueryResultM) (params : Params) :
    HandlerResult :=
  match reqStringParam params (gs "query") with
  | none => (errorResult (gs "Error: query parameter is required and must be a string"), none)
  | some query =>
    match reqStringParam params (gs "start") with
    | none => (errorResult (gs "Error: start parameter is required and must be a string"), none)
    | some startP =>
      match reqStringParam params (gs "end") with
      | none => (errorResult (gs "Error: end parameter is required and must be a string"), none)
      | some endP =>
        match reqStringParam params (gs "step") with
        | none => (errorResult (gs "Error: step parameter is required and must be a string"), none)
        | some step =>
          let unlimited := getStringParam params (gs "unlimited") == gs "true"
          let options := extractQueryOptions params
          let result :=
            if anyQueryOption options then
              ExecuteRangeQueryWithOptions net query startP endP step options
            else ExecuteRangeQuery net query startP endP step
          match result with
          | .error e => (errorResult (gs "Error executing range query: " ++ clientErrorText e), none)
          | .ok r => (⟨false, formatQueryResult r.resultType r.resultRepr unlimited⟩, none)

instance {ε α : Type _} [DecidableEq ε] [DecidableEq α] : DecidableEq (Except ε α) := fun a b =>
  match a, b with
  | .ok x, .ok y => if h : x = y then .isTrue (by rw [h]) else .isFalse (by simp [h])
  | .error x, .error y => if h : x = y then .isTrue (by rw [h]) else .isFalse (by simp [h])
  | .ok _, .error _ => .isFalse (by simp)
  | .error _, .ok _ => .isFalse (by simp)

/-- A transport built from a config with no token and no username carries no
auth layer. -/
lemma layerKinds_no_auth (config : PrometheusConfig)
    (h1 : config.token = []) (h2 : config.username = []) :
    LayerKind.bearerToken ∉ layerKinds (buildRoundTripper config) ∧
    LayerKind.basicAuth ∉ layerKinds (buildRoundTripper config) := by
  unfold buildRoundTripper
  simp only [h1, h2, ne_eq, not_true_eq_false, false_and, if_false, ite_not]
  split <;> simp [layerKinds]

/-! ## C5: transport layering of `NewClient` -/

/-- C5.  `NewClient` builds the transport as a layered chain: the refinement
equation against `specTransport` (written from the spec's words) plus the
structural facts — default transport innermost, a bearer layer exactly when a
token is configured, a basic-auth layer exactly when there is no token but a
username and password, never both auth layers, and the org-id layer outermost
exactly when an org id is configured. -/
theorem NewClient_transport_layering (config : PrometheusConfig) :
    buildRoundTripper config = specTransport config ∧
    (layerKinds (buildRoundTripper config)).getLast? = some LayerKind.defaultTransport ∧
    (LayerKind.bearerToken ∈ layerKinds (buildRoundTripper config) ↔ config.token ≠ []) ∧
    (LayerKind.basicAuth ∈ layerKinds (buildRoundTripper config) ↔
      (config.token = [] ∧ config.username ≠ [] ∧ config.password ≠ [])) ∧
    ¬(LayerKind.bearerToken ∈ layerKinds (buildRoundTripper config) ∧
      LayerKind.basicAuth ∈ layerKinds (buildRoundTripper config)) ∧
    ((layerKinds (buildRoundTripper config)).head? = some LayerKind.orgHeader ↔
      config.orgID ≠ []) := by
  unfold buildRoundTripper specTransport
  split_ifs with h1 h2 h3 <;> simp_all [layerKinds]

/-- Config used by the C5 witness: token, username, password and org id all
set, so bearer wins over basic and the org layer is outermost. -/
def cfgC5 : PrometheusConfig :=
  ⟨gs "http://prom.example:9090", gs "user", gs "pass", gs "tok", gs "org-1"⟩

/-- Witness for C5 at a concrete config with every field set: the chain
equals the spec-described transport, carries a bearer layer, no basic-auth
layer, and
the org-id layer outermost. -/
theorem NewClient_transport_layering_witness :
    buildRoundTripper cfgC5 = specTransport cfgC5 ∧
    LayerKind.bearerToken ∈ layerKinds (buildRoundTripper cfgC5) ∧
    LayerKind.basicAuth ∉ layerKinds (buildRoundTripper cfgC5) ∧
    (layerKinds (buildRoundTripper cfgC5)).head? = some LayerKind.orgHeader := by
  have h := NewClient_transport_layering cfgC5
  exact ⟨h.1, h.2.2.1.mpr (by decide),
    fun hb => absurd (h.2.2.2.1.mp hb).1 (by decide),
    h.2.2.2.2.2.mpr (by decide)⟩

/-! ## C6: URL resolution of `buildPrometheusConfig` -/

/-- C6.  `buildPrometheusConfig` errors exactly when both the environment URL
and the parameter are empty; on success the URL is the environment value when
set, else the parameter, and a missing org id is acceptable (stays empty, no
error). -/
theorem buildPrometheusConfig_url_resolution (baseConfig : PrometheusConfig) (env : Env)
    (prometheusURL orgID : GoString) :
    ((∃ e, buildPrometheusConfig baseConfig env prometheusURL orgID = .error e) ↔
      (env.promURL = [] ∧ prometheusURL = [])) ∧
    (∀ cfg, buildPrometheusConfig baseConfig env prometheusURL orgID = .ok cfg →
      cfg.url = (if env.promURL ≠ [] then env.promURL else prometheusURL) ∧
      (env.promOrgID = [] → orgID = [] → cfg.orgID = [])) := by
  unfold buildPrometheusConfig
  split_ifs with h1 h2 <;> simp_all

/-- Environment used by the C6 witness: URL set, no org id anywhere. -/
def envC6 : Env := ⟨gs "http://env.example:9090", [], [], [], []⟩

/-- Config produced by `buildPrometheusConfig` in the C6 witness. -/
def cfgC6 : PrometheusConfig := ⟨gs "http://env.example:9090", [], [], [], []⟩

/-- Witness for C6 at a concrete input: with the environment URL set and no
org id from either source, construction succeeds, resolves the environment
URL, and leaves the org id empty. -/
theorem buildPrometheusConfig_url_resolution_witness :
    cfgC6.url = (if envC6.promURL ≠ [] then envC6.promURL else []) ∧ cfgC6.orgID = [] := by
  have h := (buildPrometheusConfig_url_resolution PrometheusConfig.zero envC6 [] []).2
    cfgC6 (by decide)
  exact ⟨h.1, h.2 (by decide) rfl⟩

/-! ## C10: time-parameter validation of the instant-query client calls -/

/-- Network oracle used by concrete witnesses: a successful empty vector. -/
def netOk : Except GoString QueryResultM := .ok ⟨gs "vector", gs "[]"⟩

/-- C8 (amended).  The plain client calls carry fixed timeouts — 30s for
instant queries, discovery and admin calls, 60s for range queries — while the
`WithOptions` variants default to those values and use the caller-supplied
`timeout` option whenever it parses as a Go duration. -/
theorem per_operation_timeouts :
    executeQueryTimeoutNs = 30 * nsPerSecond ∧
    executeRangeQueryTimeoutNs = 60 * nsPerSecond ∧
    listMetricsTimeoutNs = 30 * nsPerSecond ∧
    getMetricMetadataTimeoutNs = 30 * nsPerSecond ∧
    getTargetsTimeoutNs = 30 * nsPerSecond ∧
    labelQueryTimeoutNs = 30 * nsPerSecond ∧
    findSeriesTimeoutNs = 30 * nsPerSecond ∧
    adminCallTimeoutNs = 30 * nsPerSecond ∧
    (∀ o : QueryOptions, o.timeout = [] ∨ parseGoDuration o.timeout = none →
      executeQueryWithOptionsTimeoutNs o = 30 * nsPerSecond ∧
      executeRangeQueryWithOptionsTimeoutNs o = 60 * nsPerSecond) ∧
    (∀ o : QueryOptions, ∀ d : Int, parseGoDuration o.timeout = some d →
      executeQueryWithOptionsTimeoutNs o = d ∧
      executeRangeQueryWithOptionsTimeoutNs o = d) := by
  refine ⟨rfl, rfl, rfl, rfl, rfl, rfl, rfl, rfl, ?_, ?_⟩
  · intro o h
    unfold executeQueryWithOptionsTimeoutNs executeRangeQueryWithOptionsTimeoutNs
    rcases h with h | h
    · simp [h]
    · split_ifs with ht <;> simp [h]
  · intro o d h
    unfold executeQueryWithOptionsTimeoutNs executeRangeQueryWithOptionsTimeoutNs
    have ho : o.timeout ≠ [] := by
      intro he
      rw [he] at h
      simp [parseGoDuration] at h
    simp [ho, h]

/-- Counterexample to C8 as stated: an instant query through
`ExecuteQueryWithOptions` with the `timeout` option "5m" carries a 300-second
timeout, not the fixed 30 seconds. -/
theorem withOptions_timeout_not_fixed_cex :
    executeQueryWithOptionsTimeoutNs ⟨gs "5m", [], [], []⟩ = 300 * nsPerSecond ∧
    executeQueryWithOptionsTimeoutNs ⟨gs "5m", [], [], []⟩ ≠ executeQueryTimeoutNs := by
  decide

/-- Witness for C8 at concrete inputs: an empty `timeout` option yields the
30s/60s defaults, the parsable option "5m" yields 300 seconds, and the
overflowing option "3000000h" (beyond the int64 range of `time.Duration`)
fails to parse so the 30-second default is kept. -/
theorem per_operation_timeouts_witness :
    (executeQueryWithOptionsTimeoutNs ⟨[], [], [], []⟩ = 30 * nsPerSecond ∧
      executeRangeQueryWithOptionsTimeoutNs ⟨[], [], [], []⟩ = 60 * nsPerSecond) ∧
    executeQueryWithOptionsTimeoutNs ⟨gs "5m", [], [], []⟩ = 300 * nsPerSecond ∧
    executeQueryWithOptionsTimeoutNs ⟨gs "3000000h", [], [], []⟩ = 30 * nsPerSecond := by
  refine ⟨per_operation_timeouts.2.2.2.2.2.2.2.2.1 ⟨[], [], [], []⟩ (Or.inl rfl), ?_, ?_⟩
  · exact (per_operation_timeouts.2.2.2.2.2.2.2.2.2 ⟨gs "5m", [], [], []⟩
      (300 * nsPerSecond) (by decide)).1
  · exact (per_operation_timeouts.2.2.2.2.2.2.2.2.1 ⟨gs "3000000h", [], [], []⟩
      (Or.inr (by decide))).1

/-! ## C4: missing required parameters yield error results, not exceptions -/

/-- C3.  A call to `execute_query` or `execute_range_query` with
`unlimited="true"`, whose required parameters pass validation and whose
client call succeeds, returns the complete serialization — whatever its
length — with the performance warning prepended. -/
theorem unlimited_output_no_truncation (net : Except GoString QueryResultM)
    (params : Params) (r : QueryResultM)
    (hnet : net = .ok r)
    (hu : getStringParam params (gs "unlimited") = gs "true") :
    (∀ q, reqStringParam params (gs "query") = some q →
      timeParamAccepted (getStringParam params (gs "time")) = true →
      handleExecuteQuery net params =
        (⟨false, unlimitedWarning ++ queryResultText r.resultType r.resultRepr⟩, none)) ∧
    (∀ q s e st, reqStringParam params (gs "query") = some q →
      reqStringParam params (gs "start") = some s → rfc3339Valid s = true →
      reqStringParam params (gs "end") = some e → rfc3339Valid e = true →
      reqStringParam params (gs "step") = some st → parsePromDuration st ≠ none →
      handleExecuteRangeQuery net params =
        (⟨false, unlimitedWarning ++ queryResultText r.resultType r.resultRepr⟩, none)) := by
  subst hnet
  constructor
  · intro q hq ht
    unfold handleExecuteQuery
    rw [hq]
    have h1 : ExecuteQueryWithOptions (Except.ok r) q (getStringParam params (gs "time"))
        (extractQueryOptions params) = Except.ok r := by
      simp [ExecuteQueryWithOptions, ht, dispatchCall]
    have h2 : ExecuteQuery (Except.ok r) q (getStringParam params (gs "time")) =
        Except.ok r := by
      simp [ExecuteQuery, ht, dispatchCall]
    simp [h1, h2, hu, formatQueryResult]
  · intro q s e st hq hs hsv he hev hst hstv
    obtain ⟨d, hd⟩ := Option.ne_none_iff_exists'.mp hstv
    unfold handleExecuteRangeQuery
    rw [hq, hs, he, hst]
    have h1 : ExecuteRangeQueryWithOptions (Except.ok r) q s e st
        (extractQueryOptions params) = Except.ok r := by
      simp [ExecuteRangeQueryWithOptions, hsv, hev, hd, dispatchCall]
    have h2 : ExecuteRangeQuery (Except.ok r) q s e st = Except.ok r := by
      simp [ExecuteRangeQuery, hsv, hev, hd, dispatchCall]
    simp [h1, h2, hu, formatQueryResult]

/-- Argument map of the C3 witness: a range-capable call with
`unlimited="true"`. -/
def paramsC3 : Params :=
  [(gs "query", .str (gs "up")), (gs "start", .str (gs "2023-01-01T00:00:00Z")),
   (gs "end", .str (gs "2023-01-01T01:00:00Z")), (gs "step", .str (gs "1m")),
   (gs "unlimited", .str (gs "true"))]

/-- Witness for C3 at concrete inputs: both handlers return the warning
followed by the full serialization. -/
theorem unlimited_output_no_truncation_witness :
    handleExecuteQuery netOk paramsC3 =
      (⟨false, unlimitedWarning ++ queryResultText (gs "vector") (gs "[]")⟩, none) ∧
    handleExecuteRangeQuery netOk paramsC3 =
      (⟨false, unlimitedWarning ++ queryResultText (gs "vector") (gs "[]")⟩, none) := by
  have h := unlimited_output_no_truncation netOk paramsC3 ⟨gs "vector", gs "[]"⟩ rfl (by decide)
  exact ⟨h.1 (gs "up") (by decide) (by decide),
    h.2 (gs "up") (gs "2023-01-01T00:00:00Z") (gs "2023-01-01T01:00:00Z") (gs "1m")
      (by decide) (by decide) (by decide) (by decide) (by decide) (by decide) (by decide)⟩

/-! ## C9: successful `execute_query` calls report success -/

/-- C9.  An `execute_query` call with a valid query parameter, no time
parameter, unlimited output not requested, a succeeding client call, and a
result within the truncation threshold returns a non-error result whose text
is exactly "Query executed successfully." followed by the result type and
the result value. -/
theorem handleExecuteQuery_success_message (net : Except GoString QueryResultM)
    (params : Params) (r : QueryResultM) (q : GoString)
    (hq : reqStringParam params (gs "query") = some q)
    (ht : getStringParam params (gs "time") = [])
    (hu : getStringParam params (gs "unlimited") ≠ gs "true")
    (hnet : net = .ok r)
    (hlen : (queryResultText r.resultType r.resultRepr).length ≤ MaxResultLength) :
    handleExecuteQuery net params =
      (⟨false, gs "Query executed successfully.\nResult Type: " ++ r.resultType ++
        gs "\nResult: " ++ r.resultRepr⟩, none) := by
  subst hnet
  unfold handleExecuteQuery
  rw [hq]
  have h1 : ExecuteQueryWithOptions (Except.ok r) q (getStringParam params (gs "time"))
      (extractQueryOptions params) = Except.ok r := by
    simp [ExecuteQueryWithOptions, timeParamAccepted, ht, dispatchCall]
  have h2 : ExecuteQuery (Except.ok r) q (getStringParam params (gs "time")) =
      Except.ok r := by
    simp [ExecuteQuery, timeParamAccepted, ht, dispatchCall]
  have hub : (getStringParam params (gs "unlimited") == gs "true") = false :=
    beq_eq_false_iff_ne.mpr hu
  simp only [queryResultText, List.length_append] at hlen
  simp [h1, h2, hub, formatQueryResult, queryResultText]
  intro hcon
  omega

/-- Argument map of the C9 witness: the claim's mock scenario
`{"query":"up"}`. -/
def paramsC9 : Params := [(gs "query", .str (gs "up"))]

/-- Witness for C9 at the claim's concrete scenario: `{"query":"up"}`
against a succeeding call returning an empty vector yields the success
message with the result type and value. -/
theorem handleExecuteQuery_success_message_witness :
    handleExecuteQuery netOk paramsC9 =
      (⟨false, gs "Query executed successfully.\nResult Type: " ++ gs "vector" ++
        gs "\nResult: " ++ gs "[]"⟩, none) :=
  handleExecuteQuery_success_message netOk paramsC9 ⟨gs "vector", gs "[]"⟩ (gs "up")
    (by decide) (by decide) (by decide) rfl (by decide)

/-- When either dynamic parameter is supplied, a successful
`createClientFromParams` is the `NewClient` of the fresh parameter-only
config, whose URL part is non-empty. -/
lemma createClientFromParams_dynamic (apiOk : PrometheusConfig → Bool)
    (params : Params) (defaultClient : Option ClientRepr) (c : ClientRepr)
    (hne : ¬(asStringParam params (gs "prometheus_url") = none ∧
        asStringParam params (gs "org_id") = none))
    (hc : createClientFromParams apiOk params defaultClient = .ok c) :
    c = NewClient apiOk
      { url := match asStringParam params (gs "prometheus_url") with
               | some u => if u ≠ [] then u else []
               | none => []
        username := [], password := [], token := []
        orgID := match asStringParam params (gs "org_id") with
                 | some o => if o ≠ [] then o else []
                 | none => [] } ∧
    ¬((match asStringParam params (gs "prometheus_url") with
       | some u => if u ≠ [] then u else []
       | none => []) = ([] : GoString)) := by
  simp only [createClientFromParams, if_neg hne] at hc
  split_ifs at hc with h1 h2
  rw [Except.ok.injEq] at hc
  exact ⟨hc.symm, h1⟩

/-! ## C7: dynamically created clients carry no credentials -/

/-- C7.  A tool call that supplies a `prometheus_url` or `org_id` parameter
(as a string) gets a freshly built client whose configuration carries no
username, password or token — whatever credentials the server's defaults
hold — so its transport has neither a bearer nor a basic-auth layer. -/
theorem dynamic_client_carries_no_credentials (apiOk : PrometheusConfig → Bool)
    (params : Params) (defaultClient : Option ClientRepr) (c : ClientRepr)
    (hp : ¬(asStringParam params (gs "prometheus_url") = none ∧
        asStringParam params (gs "org_id") = none))
    (hc : createClientFromParams apiOk params defaultClient = .ok c) :
    c.config.username = [] ∧ c.config.password = [] ∧ c.config.token = [] ∧
    LayerKind.bearerToken ∉ layerKinds (buildRoundTripper c.config) ∧
    LayerKind.basicAuth ∉ layerKinds (buildRoundTripper c.config) := by
  obtain ⟨hcc, -⟩ := createClientFromParams_dynamic apiOk params defaultClient c hp hc
  subst hcc
  exact ⟨rfl, rfl, rfl, (layerKinds_no_auth _ rfl rfl).1, (layerKinds_no_auth _ rfl rfl).2⟩

/-- Parameters of the C7 witness: only a per-call URL. -/
def paramsC7 : Params := [(gs "prometheus_url", .str (gs "http://other.example:9090"))]

/-- Client produced in the C7 witness. -/
def clientC7 : ClientRepr := ⟨⟨gs "http://other.example:9090", [], [], [], []⟩, true⟩

/-- Witness for C7 at a concrete input: a call supplying only
`prometheus_url` against a server whose default config carries a token gets
a credential-free client with no auth layer. -/
theorem dynamic_client_carries_no_credentials_witness :
    clientC7.config.username = [] ∧ clientC7.config.password = [] ∧
    clientC7.config.token = [] ∧
    LayerKind.bearerToken ∉ layerKinds (buildRoundTripper clientC7.config) ∧
    LayerKind.basicAuth ∉ layerKinds (buildRoundTripper clientC7.config) :=
  dynamic_client_carries_no_credentials (fun _ => true) paramsC7
    (some ⟨⟨gs "http://env.example:9090", [], [], gs "secret-token", []⟩, true⟩) clientC7
    (by decide) (by decide)

/-! ## C1: per-call URL/org-id parameters versus environment variables -/

/-- C1 (amended).  On the tool-serving path, a supplied `prometheus_url`
parameter wins: whatever the environment variables say, when
`createClientFromParams` succeeds for a call carrying a `prometheus_url`
string parameter, the client is configured with the parameter's URL, and a
non-empty `org_id` parameter likewise becomes the client's org id. -/
theorem createClientFromParams_param_precedence (apiOk : PrometheusConfig → Bool)
    (env : Env) (params : Params) (u : GoString) (c : ClientRepr)
    (hu : asStringParam params (gs "prometheus_url") = some u)
    (hc : serveToolCallClient apiOk env params = .ok c) :
    c.config.url = u ∧
    (∀ o, asStringParam params (gs "org_id") = some o → o ≠ [] → c.config.orgID = o) := by
  unfold serveToolCallClient at hc
  obtain ⟨hcc, hurl⟩ :=
    createClientFromParams_dynamic apiOk params _ c (by simp [hu]) hc
  rw [hu] at hcc hurl
  by_cases hu0 : u = []
  · exact absurd (by simp [hu0]) hurl
  · subst hcc
    refine ⟨by simp [NewClient, hu0], ?_⟩
    intro o ho ho0
    simp [NewClient, ho, ho0]

/-- Environment of the C1 counterexample: both URL and org id set. -/
def envC1 : Env := ⟨gs "http://env.example:9090", [], [], [], gs "env-org"⟩

/-- Parameters of the C1 counterexample: per-call URL and org id both set. -/
def paramsC1 : Params :=
  [(gs "prometheus_url", .str (gs "http://param.example:9090")),
   (gs "org_id", .str (gs "param-org"))]

/-- Client actually serving the C1 counterexample call. -/
def clientC1 : ClientRepr :=
  ⟨⟨gs "http://param.example:9090", [], [], [], gs "param-org"⟩, true⟩

/-- Counterexample to C1 as stated: with `PROMETHEUS_URL` and
`PROMETHEUS_ORGID` set in the environment and `prometheus_url`/`org_id`
supplied on the call, the client serving the call uses the parameters'
values, not the environment's. -/
theorem createClientFromParams_env_ignored_cex :
    serveToolCallClient (fun _ => true) envC1 paramsC1 = .ok clientC1 ∧
    clientC1.config.url = gs "http://param.example:9090" ∧
    clientC1.config.url ≠ envC1.promURL ∧
    clientC1.config.orgID = gs "param-org" ∧
    clientC1.config.orgID ≠ envC1.promOrgID := by
  decide

/-- Witness for the amended C1 at a concrete input: the served client's URL
and org id equal the call parameters. -/
theorem createClientFromParams_param_precedence_witness :
    clientC1.config.url = gs "http://param.example:9090" ∧
    clientC1.config.orgID = gs "param-org" := by
  have h := createClientFromParams_param_precedence (fun _ => true) envC1 paramsC1
    (gs "http://param.example:9090") clientC1 (by decide) (by decide)
  exact ⟨h.1, h.2 (gs "param-org") (by decide) (by decide)⟩

/-! ## C2: truncation of over-threshold results -/

lemma lastNewlineAux?_eq_none_iff (l : GoString) : lastNewlineAux? l = none ↔ '\n' ∉ l := by
  induction l with
  | nil => simp [lastNewlineAux?]
  | cons c cs ih =>
    rw [lastNewlineAux?]
    cases h : lastNewlineAux? cs with
    | some i =>
      have hmem : '\n' ∈ cs := by
        by_contra hmem
        rw [ih.mpr hmem] at h
        cases h
      simp [List.mem_cons, hmem]
    | none =>
      have hmem : '\n' ∉ cs := ih.mp h
      by_cases hcn : c = '\n'
      · simp [hcn]
      · simp [hcn, hmem, List.mem_cons]
        exact fun he => hcn he.symm

lemma lastNewlineAux?_append_none (a b : GoString) (hb : lastNewlineAux? b = none) :
    lastNewlineAux? (a ++ b) = lastNewlineAux? a := by
  induction a with
  | nil => simpa using hb
  | cons c cs ih => simp only [List.cons_append, lastNewlineAux?, List.append_eq, ih]

lemma lastNewlineIndex_eq_of_aux (s : GoString) (i : Nat) (h : lastNewlineAux? s = some i) :
    lastNewlineIndex s = (i : Int) := by
  unfold lastNewlineIndex
  rw [h]

lemma no_newline_getElem? (l : GoString) (h : '\n' ∉ l) (k : Nat) : l[k]? ≠ some '\n' :=
  fun hc => h (List.getElem?_mem hc)

lemma lastNewlineAux?_spec (l : GoString) (i : Nat) (h : lastNewlineAux? l = some i) :
    i < l.length ∧ l[i]? = some '\n' ∧ ∀ j, i < j → l[j]? ≠ some '\n' := by
  induction l generalizing i with
  | nil => simp [lastNewlineAux?] at h
  | cons c cs ih =>
    rw [lastNewlineAux?] at h
    cases hcs : lastNewlineAux? cs with
    | some j =>
      rw [hcs] at h
      rw [Option.some.injEq] at h
      subst h
      obtain ⟨h1, h2, h3⟩ := ih j hcs
      refine ⟨by simpa using Nat.succ_lt_succ h1, by simpa using h2, ?_⟩
      intro m hm
      match m, hm with
      | m + 1, hm =>
        rw [List.getElem?_cons_succ]
        exact h3 m (by omega)
    | none =>
      rw [hcs] at h
      split_ifs at h with hc
      rw [Option.some.injEq] at h
      subst h
      refine ⟨by simp, by simp [hc], ?_⟩
      intro m hm
      match m, hm with
      | m + 1, _ =>
        rw [List.getElem?_cons_succ]
        exact no_newline_getElem? cs ((lastNewlineAux?_eq_none_iff cs).mp hcs) m

/-- C2 (amended).  Results within the threshold are returned unmodified.
Results beyond it are truncated to a prefix of between 49000 (exclusive) and
50000 (inclusive) characters carrying the fixed advisory suffix, and the two
cases are characterized exactly: when the serialization has a newline at a
position in the trailing 1000-character window of the 50000-character prefix
(strictly after position 49000), the prefix is strictly shorter than 50000
and ends right before the last such newline; when it has none, the full
50000-character prefix is kept. -/
theorem formatQueryResult_truncation_characterization (resultType resultRepr : GoString) :
    ((queryResultText resultType resultRepr).length ≤ MaxResultLength →
      formatQueryResult resultType resultRepr false = queryResultText resultType resultRepr) ∧
    ((queryResultText resultType resultRepr).length > MaxResultLength →
      ∃ n, MaxResultLength - 1000 < n ∧ n ≤ MaxResultLength ∧
        formatQueryResult resultType resultRepr false =
          (queryResultText resultType resultRepr).take n ++ TruncationAdvice ∧
        ((∃ k, MaxResultLength - 1000 < k ∧ k < MaxResultLength ∧
            (queryResultText resultType resultRepr)[k]? = some '\n') →
          n < MaxResultLength ∧
          (queryResultText resultType resultRepr)[n]? = some '\n' ∧
          ∀ j, n < j → j < MaxResultLength →
            (queryResultText resultType resultRepr)[j]? ≠ some '\n') ∧
        ((¬∃ k, MaxResultLength - 1000 < k ∧ k < MaxResultLength ∧
            (queryResultText resultType resultRepr)[k]? = some '\n') →
          n = MaxResultLength)) := by
  have hM : MaxResultLength = 50000 := rfl
  unfold formatQueryResult truncateWithAdvice
  set s := queryResultText resultType resultRepr with hs
  rw [if_neg Bool.false_ne_true]
  constructor
  · intro h
    rw [if_neg (Nat.not_lt.mpr h)]
  · intro h
    rw [if_pos h]
    have hts : ∀ k, k < MaxResultLength → (s.take MaxResultLength)[k]? = s[k]? := by
      intro k hk
      rw [List.getElem?_take, if_pos hk]
    have hlen : (s.take MaxResultLength).length = MaxResultLength := by
      rw [List.length_take]
      omega
    cases hfind : lastNewlineAux? (s.take MaxResultLength) with
    | none =>
      refine ⟨MaxResultLength, by omega, le_refl _, ?_, ?_, fun _ => rfl⟩
      · simp only [lastNewlineIndex, hfind]
        rw [if_neg (by rw [hM]; decide)]
      · rintro ⟨k, hk1, hk2, hk3⟩
        have hkt : (s.take MaxResultLength)[k]? = some '\n' := by
          rw [hts k hk2]
          exact hk3
        exact absurd (List.getElem?_mem hkt) ((lastNewlineAux?_eq_none_iff _).mp hfind)
    | some i =>
      obtain ⟨hilt, hinl, hmax⟩ := lastNewlineAux?_spec _ _ hfind
      rw [hlen] at hilt
      simp only [lastNewlineIndex, hfind]
      by_cases hgt : (i : Int) > (MaxResultLength : Int) - 1000
      · have hgt' : MaxResultLength - 1000 < i := by omega
        have hsi : s[i]? = some '\n' := by
          rw [← hts i hilt]
          exact hinl
        have hsmax : ∀ j, i < j → j < MaxResultLength → s[j]? ≠ some '\n' := by
          intro j hj hjM hcon
          refine hmax j hj ?_
          rw [hts j hjM]
          exact hcon
        refine ⟨i, hgt', le_of_lt hilt, ?_, fun _ => ⟨hilt, hsi, hsmax⟩,
          fun hne => absurd ⟨i, hgt', hilt, hsi⟩ hne⟩
        rw [if_pos hgt]
        congr 1
        rw [Int.toNat_natCast, List.take_take]
        rw [min_eq_left hilt.le]
      · have hile : i ≤ MaxResultLength - 1000 := by omega
        refine ⟨MaxResultLength, by omega, le_refl _, ?_, ?_, fun _ => rfl⟩
        · rw [if_neg hgt]
        · rintro ⟨k, hk1, hk2, hk3⟩
          have htk : (s.take MaxResultLength)[k]? = some '\n' := by
            rw [hts k hk2]
            exact hk3
          have hki : k ≤ i := by
            by_contra hki
            exact hmax k (by omega) htk
          omega

/-- The `%+v` rendering used by the C2 concrete input: 50000 copies of `a`,
newline-free. -/
def reprBig : GoString := List.replicate 50000 'a'

/-- The fixed prefix of the serialization for result type "vector". -/
def fixedC2 : GoString := gs "Query executed successfully.\nResult Type: vector\nResult: "

lemma queryResultText_reprBig_eq :
    queryResultText (gs "vector") reprBig = fixedC2 ++ reprBig := by
  have h : gs "Query executed successfully.\nResult Type: " ++ gs "vector" ++
      gs "\nResult: " = fixedC2 := by decide
  unfold queryResultText
  rw [List.append_assoc, List.append_assoc, ← List.append_assoc, ← List.append_assoc, h]

lemma fixedC2_length : fixedC2.length = 57 := by decide

lemma queryResultText_reprBig_length :
    (queryResultText (gs "vector") reprBig).length = 50057 := by
  rw [queryResultText_reprBig_eq, List.length_append, fixedC2_length,
    show reprBig = List.replicate 50000 'a' from rfl, List.length_replicate]

/-- Counterexample to C2 as stated: a 50057-character serialization with no
newline after position 48 is truncated to the plain 50000-character prefix —
not at any newline boundary, there being no newline anywhere in the trailing
window. -/
theorem formatQueryResult_no_newline_boundary_cex :
    (queryResultText (gs "vector") reprBig).length > MaxResultLength ∧
    formatQueryResult (gs "vector") reprBig false =
      (queryResultText (gs "vector") reprBig).take MaxResultLength ++ TruncationAdvice ∧
    ∀ k, MaxResultLength - 1000 < k →
      (queryResultText (gs "vector") reprBig)[k]? ≠ some '\n' := by
  have hM : MaxResultLength = 50000 := rfl
  have hlen := queryResultText_reprBig_length
  refine ⟨by omega, ?_, ?_⟩
  · have htake : (queryResultText (gs "vector") reprBig).take MaxResultLength =
        fixedC2 ++ List.replicate 49943 'a' := by
      rw [queryResultText_reprBig_eq, List.take_append_eq_append_take,
        List.take_of_length_le (by rw [fixedC2_length, hM]; omega), fixedC2_length, hM,
        show reprBig = List.replicate 50000 'a' from rfl, List.take_replicate]
      norm_num
    have hrep : lastNewlineAux? (List.replicate 49943 'a') = none :=
      (lastNewlineAux?_eq_none_iff _).mpr
        (fun hmem => absurd (List.eq_of_mem_replicate hmem) (by decide))
    have hnl : lastNewlineAux? (fixedC2 ++ List.replicate 49943 'a') = some 48 := by
      rw [lastNewlineAux?_append_none _ _ hrep]
      decide
    unfold formatQueryResult truncateWithAdvice
    rw [if_neg Bool.false_ne_true, if_pos (by omega)]
    rw [htake, lastNewlineIndex_eq_of_aux _ _ hnl]
    rw [if_neg (by rw [hM]; omega)]
  · intro k hk
    rw [queryResultText_reprBig_eq,
      List.getElem?_append_right (by rw [fixedC2_length]; omega),
      show reprBig = List.replicate 50000 'a' from rfl, List.getElem?_replicate]
    split_ifs <;> simp

/-- Witness for the amended C2 at concrete inputs: a short result is returned
unmodified, and the 50057-character result above is truncated to a prefix in
the characterized window with the advisory suffix. -/
theorem formatQueryResult_truncation_characterization_witness :
    ((queryResultText (gs "vector") (gs "[]")).length ≤ MaxResultLength ∧
      formatQueryResult (gs "vector") (gs "[]") false = queryResultText (gs "vector") (gs "[]")) ∧
    ((queryResultText (gs "vector") reprBig).length > MaxResultLength ∧
      ∃ n, MaxResultLength - 1000 < n ∧ n ≤ MaxResultLength ∧
        formatQueryResult (gs "vector") reprBig false =
          (queryResultText (gs "vector") reprBig).take n ++ TruncationAdvice ∧
        ((∃ k, MaxResultLength - 1000 < k ∧ k < MaxResultLength ∧
            (queryResultText (gs "vector") reprBig)[k]? = some '\n') →
          n < MaxResultLength ∧
          (queryResultText (gs "vector") reprBig)[n]? = some '\n' ∧
          ∀ j, n < j → j < MaxResultLength →
            (queryResultText (gs "vector") reprBig)[j]? ≠ some '\n') ∧
        ((¬∃ k, MaxResultLength - 1000 < k ∧ k < MaxResultLength ∧
            (queryResultText (gs "vector") reprBig)[k]? = some '\n') →
          n = MaxResultLength)) := by
  have h1 : (queryResultText (gs "vector") (gs "[]")).length ≤ MaxResultLength := by decide
  have h2 : (queryResultText (gs "vector") reprBig).length > MaxResultLength := by
    have := queryResultText_reprBig_length
    have hM : MaxResultLength = 50000 := rfl
    omega
  exact ⟨⟨h1, (formatQueryResult_truncation_characterization (gs "vector") (gs "[]")).1 h1⟩,
    ⟨h2, (formatQueryResult_truncation_characterization (gs "vector") reprBig).2 h2⟩⟩

end MCPProm
